import Mathlib

/-!
Shallow embedding of the Modular-Video-Editor timeline engine.

The data model follows the TypeScript interfaces of the repository
(ClipType, Transform, TextData, Transition, Clip, MediaAsset, Track,
CanvasSize, TimelineState).  JavaScript numbers are modelled as rationals
(all arithmetic in the engine is exact on the inputs we reason about),
Record<string, T> objects are modelled as insertion-ordered lists keyed
by the id field (spread-update keeps the position of an existing key,
a fresh key appends; Object.values enumerates in insertion order),
and the ad-hoc Math.random clip identifiers are supplied as an explicit
field of the command, since their value never influences the logic.
-/

namespace VideoEditor

/-- Clip kinds, from the ClipType enum of the source. -/
inductive ClipType where
  | video
  | audio
  | image
  | text
deriving DecidableEq, Repr

/-- Asset kinds: the source uses the string union video | audio | image. -/
inductive AssetType where
  | video
  | audio
  | image
deriving DecidableEq, Repr

/-- Track kinds: the source uses the string union video | audio | overlay. -/
inductive TrackType where
  | video
  | audio
  | overlay
deriving DecidableEq, Repr

/-- Text alignment, from the TextData interface. -/
inductive TextAlign where
  | left
  | center
  | right
deriving DecidableEq, Repr

/-- Per-clip 2D transform, from the Transform interface. -/
structure Transform where
  x : ℚ
  y : ℚ
  scale : ℚ
  rotation : ℚ
  opacity : ℚ
deriving DecidableEq, Repr

/-- Text payload of a text clip, from the TextData interface. -/
structure TextData where
  content : String
  fontSize : ℚ
  fontFamily : String
  color : String
  backgroundColor : String
  align : TextAlign
deriving DecidableEq, Repr

/-- Fade transition settings, from the Transition interface. -/
structure Transition where
  inDuration : ℚ
  outDuration : ℚ
  kind : String
deriving DecidableEq, Repr

/-- One placed clip, from the Clip interface. -/
structure Clip where
  id : String
  assetId : Option String
  trackId : Int
  type : ClipType
  timelineStart : ℚ
  inPoint : ℚ
  duration : ℚ
  transform : Transform
  zIndex : ℚ
  label : String
  textData : Option TextData
  transition : Option Transition
  volume : ℚ
deriving DecidableEq, Repr

/-- One ingested media asset, from the MediaAsset interface
(the File handle carries no engine-relevant data and is dropped). -/
structure MediaAsset where
  id : String
  url : String
  type : AssetType
  duration : ℚ
  name : String
deriving DecidableEq, Repr

/-- One timeline track, from the Track interface. -/
structure Track where
  id : Int
  type : TrackType
  name : String
  isMuted : Bool
  isHidden : Bool
deriving DecidableEq, Repr

/-- Output canvas description, from the CanvasSize interface. -/
structure CanvasSize where
  width : ℚ
  height : ℚ
  name : String
deriving DecidableEq, Repr

/-- The whole editor state, from the TimelineState interface.  The two
Record objects become insertion-ordered lists. -/
structure TimelineState where
  assets : List MediaAsset
  tracks : List Track
  clips : List Clip
  duration : ℚ
  currentTime : ℚ
  isPlaying : Bool
  selectedClipId : Option String
  zoom : ℚ
  canvasSize : CanvasSize
deriving DecidableEq, Repr

/-- DEFAULT_TRANSFORM from the types module. -/
def DEFAULT_TRANSFORM : Transform :=
  { x := 0, y := 0, scale := 1, rotation := 0, opacity := 1 }

/-- Partial Clip update, modelling the Partial Clip changes payload of
UPDATE_CLIP: a present field overrides, an absent field keeps the old value. -/
structure ClipChanges where
  assetId : Option (Option String) := none
  trackId : Option Int := none
  type : Option ClipType := none
  timelineStart : Option ℚ := none
  inPoint : Option ℚ := none
  duration : Option ℚ := none
  transform : Option Transform := none
  zIndex : Option ℚ := none
  label : Option String := none
  textData : Option (Option TextData) := none
  transition : Option (Option Transition) := none
  volume : Option ℚ := none
deriving DecidableEq, Repr

/-- Spread-merge of a partial update into a clip, modelling
the object spread in the UPDATE_CLIP case of the reducer. -/
def applyClipChanges (c : Clip) (ch : ClipChanges) : Clip :=
  { id := c.id
    assetId := ch.assetId.getD c.assetId
    trackId := ch.trackId.getD c.trackId
    type := ch.type.getD c.type
    timelineStart := ch.timelineStart.getD c.timelineStart
    inPoint := ch.inPoint.getD c.inPoint
    duration := ch.duration.getD c.duration
    transform := ch.transform.getD c.transform
    zIndex := ch.zIndex.getD c.zIndex
    label := ch.label.getD c.label
    textData := ch.textData.getD c.textData
    transition := ch.transition.getD c.transition
    volume := ch.volume.getD c.volume }

/-- Partial Track update, modelling the payload of UPDATE_TRACK. -/
structure TrackChanges where
  type : Option TrackType := none
  name : Option String := none
  isMuted : Option Bool := none
  isHidden : Option Bool := none
deriving DecidableEq, Repr

/-- Spread-merge of a partial update into a track. -/
def applyTrackChanges (t : Track) (ch : TrackChanges) : Track :=
  { id := t.id
    type := ch.type.getD t.type
    name := ch.name.getD t.name
    isMuted := ch.isMuted.getD t.isMuted
    isHidden := ch.isHidden.getD t.isHidden }

/-- The reducer action union of timelineStore.  ADD_CLIP_SMART carries its
freshly generated clip id explicitly (the source draws it from Math.random;
its value is irrelevant to every property below). -/
inductive Action where
  | addAsset (payload : MediaAsset)
  | addClip (payload : Clip)
  | addClipSmart (newId : String) (assetId : Option String) (trackId : Int)
      (duration : ℚ) (type : ClipType) (name : String) (textData : Option TextData)
  | updateClip (id : String) (changes : ClipChanges)
  | removeClip (id : String)
  | setPlayhead (payload : ℚ)
  | togglePlayback
  | selectClip (payload : Option String)
  | setZoom (payload : ℚ)
  | updateTrack (id : Int) (changes : TrackChanges)
  | setCanvasSize (payload : CanvasSize)
deriving DecidableEq, Repr

/-- Record spread with a possibly-fresh key: an existing id is overwritten
in place, a new id is appended (JS insertion order). -/
def upsertAsset (l : List MediaAsset) (a : MediaAsset) : List MediaAsset :=
  if l.any (fun x => x.id = a.id) then l.map (fun x => if x.id = a.id then a else x)
  else l ++ [a]

/-- Record spread with a possibly-fresh key, clip version. -/
def upsertClip (l : List Clip) (c : Clip) : List Clip :=
  if l.any (fun x => x.id = c.id) then l.map (fun x => if x.id = c.id then c else x)
  else l ++ [c]

/-- Ordering of clips by timelineStart, the comparator of the
sort calls in findNextFreeSlot and the MOVE conflict scan. -/
def startLE (a b : Clip) : Prop := a.timelineStart ≤ b.timelineStart

instance : DecidableRel startLE := fun a b => inferInstanceAs (Decidable (a.timelineStart ≤ b.timelineStart))

instance : IsTotal Clip startLE := ⟨fun a b => le_total a.timelineStart b.timelineStart⟩

instance : IsTrans Clip startLE := ⟨fun _ _ _ => le_trans⟩

/-- One step of the free-slot scan of findNextFreeSlot: advance the
proposed start to the clip's end when the proposed interval overlaps it. -/
def slotStep (duration proposedStart : ℚ) (clip : Clip) : ℚ :=
  let clipEnd := clip.timelineStart + clip.duration
  let newEnd := proposedStart + duration
  if clip.timelineStart < newEnd ∧ clipEnd > proposedStart then clipEnd else proposedStart

/-- The gap-finder helper of timelineStore (findNextFreeSlot): filter the
track, sort ascending by timelineStart (JS sort is stable; insertionSort
matches), then one left-to-right pass pushing the proposed start past every
clip whose interval overlaps the proposal. -/
def findNextFreeSlot (clips : List Clip) (trackId : Int) (duration preferredStart : ℚ) : ℚ :=
  let trackClips := List.insertionSort startLE (clips.filter (fun c => c.trackId = trackId))
  trackClips.foldl (slotStep duration) preferredStart

/-- Default transition attached by ADD_CLIP_SMART. -/
def defaultTransition : Transition := { inDuration := 0, outDuration := 0, kind := "fade" }

/-- The pure state transition of the timeline store (timelineReducer). -/
def timelineReducer (state : TimelineState) (action : Action) : TimelineState :=
  match action with
  | .addAsset payload =>
      { state with assets := upsertAsset state.assets payload }
  | .addClip payload =>
      { state with
        clips := upsertClip state.clips payload
        duration := max state.duration (payload.timelineStart + payload.duration + 5)
        selectedClipId := some payload.id }
  | .addClipSmart newId assetId trackId duration type name textData =>
      let timelineStart := findNextFreeSlot state.clips trackId duration state.currentTime
      let newClip : Clip :=
        { id := newId
          assetId := assetId
          trackId := trackId
          type := type
          timelineStart := timelineStart
          inPoint := 0
          duration := duration
          transform := DEFAULT_TRANSFORM
          zIndex := (trackId : ℚ)
          label := name
          textData := if type = ClipType.text then textData else none
          transition := some defaultTransition
          volume := 1 }
      { state with
        clips := upsertClip state.clips newClip
        duration := max state.duration (timelineStart + duration + 5)
        selectedClipId := some newId }
  | .updateClip id changes =>
      match state.clips.find? (fun c => c.id = id) with
      | none => state
      | some clip =>
          let updatedClip := applyClipChanges clip changes
          { state with
            clips := state.clips.map (fun c => if c.id = id then updatedClip else c)
            duration := max state.duration (updatedClip.timelineStart + updatedClip.duration + 5) }
  | .removeClip id =>
      { state with
        clips := state.clips.filter (fun c => c.id ≠ id)
        selectedClipId := none }
  | .setPlayhead payload =>
      { state with currentTime := max 0 payload }
  | .togglePlayback =>
      { state with isPlaying := !state.isPlaying }
  | .selectClip payload =>
      { state with selectedClipId := payload }
  | .setZoom payload =>
      { state with zoom := max 10 (min 200 payload) }
  | .updateTrack id changes =>
      { state with
        tracks := state.tracks.map (fun t => if t.id = id then applyTrackChanges t changes else t) }
  | .setCanvasSize payload =>
      { state with canvasSize := payload }

/-- The initial state factory (createInitialState).  The numeric value of
DEFAULT_DURATION lives in src/constants, which is not part of the sources;
it is taken as a parameter because no claim depends on it. -/
def createInitialState (defaultDuration : ℚ) (canvas : CanvasSize) : TimelineState :=
  { assets := []
    tracks :=
      [ { id := 3, type := TrackType.overlay, name := "Text/FX", isMuted := false, isHidden := false }
      , { id := 2, type := TrackType.video, name := "Layer 3", isMuted := false, isHidden := false }
      , { id := 1, type := TrackType.video, name := "Layer 2", isMuted := false, isHidden := false }
      , { id := 0, type := TrackType.video, name := "Layer 1", isMuted := false, isHidden := false }
      , { id := -1, type := TrackType.audio, name := "Audio 1", isMuted := false, isHidden := false } ]
    clips := []
    duration := defaultDuration
    currentTime := 0
    isPlaying := false
    selectedClipId := none
    zoom := 50
    canvasSize := canvas }

/-- Folding a command sequence through the reducer from a start state. -/
def runActions (s : TimelineState) (actions : List Action) : TimelineState :=
  actions.foldl timelineReducer s

/-!
Interactive edit resolution from ClipItem.tsx (handleMouseMove).  A single
pointer-move proposal is a pure function of the state snapshot, the dragged
clip, the pointer delta in seconds, and (for MOVE) the target track derived
from the pointer's vertical position; the resulting changeset is dispatched
through UPDATE_CLIP.
-/

/-- Descending ordering of clips by timelineStart, the comparator of the
prev-clip scan in TRIM_START. -/
def startGE (a b : Clip) : Prop := b.timelineStart ≤ a.timelineStart

instance : DecidableRel startGE := fun a b => inferInstanceAs (Decidable (b.timelineStart ≤ a.timelineStart))

/-- Max Duration determination of handleMouseMove: asset-backed clips use
the asset's native duration (falling back to the clip's duration when the
asset id resolves to nothing), text layers get 3600. -/
def maxDurationOf (assets : List MediaAsset) (c : Clip) : ℚ :=
  match c.assetId with
  | some aid =>
      match assets.find? (fun a => a.id = aid) with
      | some asset => asset.duration
      | none => c.duration
  | none => 3600

/-- One step of the MOVE clamp scan of handleMouseMove, parameterised by
the dragged clip (original start and duration) and the fixed original
proposal.  The overlap test is always against the original proposal, not
the running clamped value. -/
def moveStep (c : Clip) (proposedStart : ℚ) (validStart : ℚ) (other : Clip) : ℚ :=
  let otherEnd := other.timelineStart + other.duration
  if proposedStart < otherEnd ∧ proposedStart + c.duration > other.timelineStart then
    if c.timelineStart < other.timelineStart then
      min validStart (other.timelineStart - c.duration)
    else max validStart otherEnd
  else validStart

/-- MOVE resolution of handleMouseMove: clamp the proposed start against
every other clip on the target track, scanning in ascending timelineStart
order. -/
def resolveMove (state : TimelineState) (c : Clip) (newTrackId : Int) (deltaSec : ℚ) : ℚ :=
  let proposedStart := max 0 (c.timelineStart + deltaSec)
  let otherClips := List.insertionSort startLE
    (state.clips.filter (fun o => o.trackId = newTrackId ∧ o.id ≠ c.id))
  otherClips.foldl (moveStep c proposedStart) proposedStart

/-- The UPDATE_CLIP changeset produced by a MOVE proposal. -/
def resolveMoveChanges (state : TimelineState) (c : Clip) (newTrackId : Int) (deltaSec : ℚ) : ClipChanges :=
  { timelineStart := some (resolveMove state c newTrackId deltaSec)
    trackId := some newTrackId
    zIndex := some (newTrackId : ℚ) }

/-- The immediately preceding clip used by TRIM_START: among the other clips
of the track whose end is at or before the dragged clip's start, the first
of a stable descending sort by timelineStart. -/
def prevClipOf (state : TimelineState) (c : Clip) : Option Clip :=
  let otherClips := state.clips.filter (fun o => o.trackId = c.trackId ∧ o.id ≠ c.id)
  (List.insertionSort startGE
    (otherClips.filter (fun o => o.timelineStart + o.duration ≤ c.timelineStart))).head?

/-- The immediately following clip used by TRIM_END: among the other clips
of the track starting at or after the dragged clip's end, the first of a
stable ascending sort by timelineStart. -/
def nextClipOf (state : TimelineState) (c : Clip) : Option Clip :=
  let otherClips := state.clips.filter (fun o => o.trackId = c.trackId ∧ o.id ≠ c.id)
  (List.insertionSort startLE
    (otherClips.filter (fun o => o.timelineStart ≥ c.timelineStart + c.duration))).head?

/-- TRIM_START resolution of handleMouseMove: move inPoint and duration in
lockstep, clamp inPoint at 0 (re-applying the clamp to duration), clamp
duration at the 0.1s floor, then clamp the shifted start first against the
preceding clip's end and finally against 0, re-applying each clamp amount
to inPoint and duration. -/
def resolveTrimStart (state : TimelineState) (c : Clip) (deltaSec : ℚ) : ClipChanges :=
  let start := c.timelineStart
  let duration := c.duration
  let inPoint := c.inPoint
  let pIn0 := inPoint + deltaSec
  let pDur0 := duration - deltaSec
  let pIn1 := if pIn0 < 0 then 0 else pIn0
  let pDur1 := if pIn0 < 0 then duration + inPoint else pDur0
  let pIn2 := if pDur1 < 1/10 then inPoint + (duration - 1/10) else pIn1
  let pDur2 := if pDur1 < 1/10 then 1/10 else pDur1
  let pStart2 := start + (pIn2 - inPoint)
  let diff1 :=
    match prevClipOf state c with
    | some prevClip =>
        let prevEnd := prevClip.timelineStart + prevClip.duration
        if pStart2 < prevEnd then prevEnd - pStart2 else 0
    | none => 0
  let pIn3 := pIn2 + diff1
  let pDur3 := pDur2 - diff1
  let pStart3 := pStart2 + diff1
  let diff2 := if pStart3 < 0 then 0 - pStart3 else 0
  { inPoint := some (pIn3 + diff2)
    duration := some (pDur3 - diff2)
    timelineStart := some (pStart3 + diff2) }

/-- TRIM_END resolution of handleMouseMove: extend duration by the delta,
cap it at the asset ceiling (maxDuration - inPoint), lift it to the 0.1s
floor, then cap the new end at the following clip's start. -/
def resolveTrimEnd (state : TimelineState) (c : Clip) (deltaSec : ℚ) : ClipChanges :=
  let start := c.timelineStart
  let duration := c.duration
  let inPoint := c.inPoint
  let maxDuration := maxDurationOf state.assets c
  let pd0 := duration + deltaSec
  let pd1 := if inPoint + pd0 > maxDuration then maxDuration - inPoint else pd0
  let pd2 := if pd1 < 1/10 then 1/10 else pd1
  let pd3 :=
    match nextClipOf state c with
    | some nextClip =>
        if start + pd2 > nextClip.timelineStart then nextClip.timelineStart - start else pd2
    | none => pd2
  { duration := some pd3 }

/-!
The composition-graph compiler: the pure argument-building part of
FFmpegService.exportVideo (input list, filter_complex chain, map arguments
and fixed codec flags).  JavaScript number-to-string interpolation is
abstracted by a fixed total rendering of rationals; every character that
the JS template literals produce around those numbers is reproduced.
-/

/-- Fixed rendering of a rational as a string, standing in for JS number
formatting inside template literals. -/
def ratToStr (q : ℚ) : String := toString q

/-- Ordering of clips by zIndex, the comparator of the compiler's clip
sort; the JS sort is stable, which insertionSort matches. -/
def zLE (a b : Clip) : Prop := a.zIndex ≤ b.zIndex

instance : DecidableRel zLE := fun a b => inferInstanceAs (Decidable (a.zIndex ≤ b.zIndex))

instance : IsTotal Clip zLE := ⟨fun a b => le_total a.zIndex b.zIndex⟩

instance : IsTrans Clip zLE := ⟨fun _ _ _ => le_trans⟩

/-- The compiler's processing order: all clips sorted by ascending zIndex,
stable in the state's insertion order. -/
def activeClips (s : TimelineState) : List Clip := List.insertionSort zLE s.clips

/-- The filename sanitizer of exportVideo: every character outside
a-zA-Z0-9 and the dot becomes an underscore. -/
def sanitizeName (s : String) : String :=
  String.map (fun ch => if ch.isAlphanum ∨ ch = Char.ofNat 46 then ch else Char.ofNat 95) s

/-- Insertion-ordered deduplication, modelling the JS Set constructor. -/
def dedupFirst (l : List String) : List String :=
  l.foldl (fun acc a => if a ∈ acc then acc else acc ++ [a]) []

/-- The unique referenced asset ids, in first-appearance order over the
zIndex-sorted clip list (filter(Boolean) drops absent and empty ids). -/
def uniqueAssets (s : TimelineState) : List String :=
  dedupFirst (((activeClips s).filterMap (fun c => c.assetId)).filter (fun a => a ≠ ""))

/-- Accumulator of the input-preparation loop of exportVideo. -/
structure InputAcc where
  inputArgs : List String
  assetInputMap : List (String × Nat)
  inputIndex : Nat
deriving DecidableEq, Repr

/-- The input-preparation loop: one -i argument per resolvable unique
asset, recording each asset's input index. -/
def buildInputs (s : TimelineState) : InputAcc :=
  (uniqueAssets s).foldl
    (fun acc assetId =>
      match s.assets.find? (fun a => a.id = assetId) with
      | none => acc
      | some asset =>
          let filename := "asset_" ++ assetId ++ "_" ++ sanitizeName asset.name
          { inputArgs := acc.inputArgs ++ ["-i", filename]
            assetInputMap := acc.assetInputMap ++ [(assetId, acc.inputIndex)]
            inputIndex := acc.inputIndex + 1 })
    { inputArgs := [], assetInputMap := [], inputIndex := 0 }

/-- Lookup in the asset-to-input-index map. -/
def lookupInput (imap : List (String × Nat)) (aid : String) : Option Nat :=
  (imap.find? (fun p => p.1 = aid)).map Prod.snd

/-- Accumulator of the per-clip filter-graph loop. -/
structure GraphAcc where
  filterChain : List String
  lastVideoLabel : String
  audioMixLabels : List String
deriving DecidableEq, Repr

/-- The enable window expression shared by overlay and drawtext
(character 39 is the apostrophe of the JS template literal). -/
def enableExpr (t0 t1 : ℚ) : String :=
  "enable=\x27between(t," ++ ratToStr t0 ++ "," ++ ratToStr t1 ++ ")\x27"

/-- The drawtext escaping of exportVideo: colon gains a backslash,
apostrophes are removed, newlines become spaces (characters 58, 92, 39,
10 and 32). -/
def escapeDrawText (s : String) : String :=
  String.mk (s.data.foldr
    (fun ch acc =>
      if ch = Char.ofNat 58 then Char.ofNat 92 :: Char.ofNat 58 :: acc
      else if ch = Char.ofNat 39 then acc
      else if ch = Char.ofNat 10 then Char.ofNat 32 :: acc
      else ch :: acc) [])

/-- Replace the first hash character by 0x, modelling the JS
color.replace of exportVideo (characters 35, 48 and 120). -/
def replaceFirstHash : List Char → List Char
  | [] => []
  | ch :: rest =>
      if ch = Char.ofNat 35 then Char.ofNat 48 :: Char.ofNat 120 :: rest
      else ch :: replaceFirstHash rest

/-- Hex color to ffmpeg 0x form. -/
def hexTo0x (s : String) : String := String.mk (replaceFirstHash s.data)

/-- The video/image preparation chain plus overlay fold for one clip.
The source pushes setpts=PTS-STARTPTS and immediately string-replaces its
sole occurrence with the timeline-shifted form; the shifted form is built
directly here. -/
def videoStage (s : TimelineState) (idx : Nat) (i : Nat) (c : Clip) (acc : GraphAcc) : GraphAcc :=
  let streamPrep :=
    if c.type = ClipType.image then
      "[" ++ toString i ++ ":v]loop=loop=-1:size=1:start=0,trim=start=0:end=" ++
        ratToStr c.duration ++ ",setpts=PTS-STARTPTS+" ++ ratToStr c.timelineStart ++ "/TB"
    else
      "[" ++ toString i ++ ":v]trim=" ++ ratToStr c.inPoint ++ ":" ++
        ratToStr (c.inPoint + c.duration) ++ ",setpts=PTS-STARTPTS+" ++
        ratToStr c.timelineStart ++ "/TB"
  let scaleFilter := "scale=iw*" ++ ratToStr c.transform.scale ++ ":ih*" ++ ratToStr c.transform.scale
  let rotateFilter := "rotate=" ++ ratToStr c.transform.rotation ++ "*PI/180:c=none:ow=rotw(" ++
    ratToStr c.transform.rotation ++ "*PI/180):oh=roth(" ++ ratToStr c.transform.rotation ++ "*PI/180)"
  let opacityFilter := "colorchannelmixer=aa=" ++ ratToStr c.transform.opacity
  let fadeFilter :=
    match c.transition with
    | some tr =>
        (if tr.inDuration > 0 then ",fade=t=in:st=0:d=" ++ ratToStr tr.inDuration ++ ":alpha=1" else "") ++
        (if tr.outDuration > 0 then
          ",fade=t=out:st=" ++ ratToStr (c.duration - tr.outDuration) ++ ":d=" ++
            ratToStr tr.outDuration ++ ":alpha=1"
        else "")
    | none => ""
  let clipLabel := "clip" ++ toString idx
  let prepared := streamPrep ++ "," ++ scaleFilter ++ "," ++ rotateFilter ++ "," ++
    opacityFilter ++ fadeFilter ++ "[" ++ clipLabel ++ "_v]"
  let x := c.transform.x / 100 * s.canvasSize.width
  let y := c.transform.y / 100 * s.canvasSize.height
  let overlay := acc.lastVideoLabel ++ "[" ++ clipLabel ++ "_v]overlay=x=" ++ ratToStr x ++
    ":y=" ++ ratToStr y ++ ":" ++ enableExpr c.timelineStart (c.timelineStart + c.duration) ++
    "[tmp_v" ++ toString idx ++ "]"
  { filterChain := acc.filterChain ++ [prepared, overlay]
    lastVideoLabel := "[tmp_v" ++ toString idx ++ "]"
    audioMixLabels := acc.audioMixLabels }

/-- The drawtext fold for one text clip. -/
def textStage (s : TimelineState) (idx : Nat) (td : TextData) (c : Clip) (acc : GraphAcc) : GraphAcc :=
  let textX := c.transform.x / 100 * s.canvasSize.width
  let textY := c.transform.y / 100 * s.canvasSize.height
  let xExpr :=
    match td.align with
    | TextAlign.left => ratToStr textX
    | TextAlign.center => ratToStr textX ++ "-(text_w/2)"
    | TextAlign.right => ratToStr textX ++ "-text_w"
  let drawText := acc.lastVideoLabel ++ "drawtext=fontfile=font.ttf:text=\x27" ++
    escapeDrawText td.content ++ "\x27:fontcolor=" ++ hexTo0x td.color ++ ":fontsize=" ++
    ratToStr td.fontSize ++ ":x=" ++ xExpr ++ ":y=" ++ ratToStr textY ++ ":" ++
    enableExpr c.timelineStart (c.timelineStart + c.duration) ++ "[tmp_v" ++ toString idx ++ "]"
  { filterChain := acc.filterChain ++ [drawText]
    lastVideoLabel := "[tmp_v" ++ toString idx ++ "]"
    audioMixLabels := acc.audioMixLabels }

/-- The audio chain for one clip: audio clips, and video clips with
non-zero volume; image-backed sources never produce audio. -/
def audioStage (s : TimelineState) (imap : List (String × Nat)) (idx : Nat) (c : Clip) (acc : GraphAcc) : GraphAcc :=
  if c.type = ClipType.audio ∨ (c.type = ClipType.video ∧ c.volume ≠ 0) then
    match c.assetId with
    | none => acc
    | some aid =>
        match lookupInput imap aid with
        | none => acc
        | some i =>
            match s.assets.find? (fun a => a.id = aid) with
            | none => acc
            | some asset =>
                if asset.type = AssetType.image then acc
                else
                  let audioLabel := "[aud" ++ toString idx ++ "]"
                  let delayMs := ratToStr (c.timelineStart * 1000)
                  let audioFilter := "[" ++ toString i ++ ":a]atrim=start=" ++ ratToStr c.inPoint ++
                    ":end=" ++ ratToStr (c.inPoint + c.duration) ++ ",asetpts=PTS-STARTPTS,volume=" ++
                    ratToStr c.volume ++ ",adelay=" ++ delayMs ++ "|" ++ delayMs ++ audioLabel
                  { filterChain := acc.filterChain ++ [audioFilter]
                    lastVideoLabel := acc.lastVideoLabel
                    audioMixLabels := acc.audioMixLabels ++ [audioLabel] }
  else acc

/-- One iteration of the per-clip forEach of exportVideo.  A video or
image clip with an unresolvable asset returns early, skipping its audio
block as well; text clips never enter the audio block's condition. -/
def processClip (s : TimelineState) (imap : List (String × Nat)) (idx : Nat) (acc : GraphAcc) (c : Clip) : GraphAcc :=
  if c.type = ClipType.video ∨ c.type = ClipType.image then
    match c.assetId with
    | none => acc
    | some aid =>
        match lookupInput imap aid with
        | none => acc
        | some i => audioStage s imap idx c (videoStage s idx i c acc)
  else if c.type = ClipType.text then
    match c.textData with
    | some td => audioStage s imap idx c (textStage s idx td c acc)
    | none => audioStage s imap idx c acc
  else audioStage s imap idx c acc

/-- The full pure argument list built by exportVideo: inputs,
filter_complex (base canvas, per-clip chains, optional amix), map
arguments and the fixed codec flags. -/
def buildExecArgs (s : TimelineState) : List String :=
  let inputs := buildInputs s
  let base := "color=c=black:s=" ++ ratToStr s.canvasSize.width ++ "x" ++
    ratToStr s.canvasSize.height ++ ":d=" ++ ratToStr s.duration ++ "[base]"
  let acc0 : GraphAcc := { filterChain := [base], lastVideoLabel := "[base]", audioMixLabels := [] }
  let acc := (activeClips s).enum.foldl
    (fun a p => processClip s inputs.assetInputMap p.1 a p.2) acc0
  let mapArgs0 := ["-map", acc.lastVideoLabel]
  let filterChain :=
    if acc.audioMixLabels.length > 0 then
      acc.filterChain ++
        [String.join acc.audioMixLabels ++ "amix=inputs=" ++
          toString acc.audioMixLabels.length ++ ":duration=longest[outa]"]
    else acc.filterChain
  let mapArgs := if acc.audioMixLabels.length > 0 then mapArgs0 ++ ["-map", "[outa]"] else mapArgs0
  inputs.inputArgs ++ ["-filter_complex", String.intercalate ";" filterChain] ++ mapArgs ++
    ["-c:v", "libx264", "-preset", "ultrafast", "-crf", "25", "-shortest", "output.mp4"]

/-!
Predicates used by the claims, and concrete fixture states used by the
witnesses and counterexamples.
-/

/-- Intersection of the half-open intervals [s1, s1+d1) and [s2, s2+d2),
exactly the overlap test used throughout the source. -/
def intervalsOverlap (s1 d1 s2 d2 : ℚ) : Prop := s2 < s1 + d1 ∧ s2 + d2 > s1

instance (s1 d1 s2 d2 : ℚ) : Decidable (intervalsOverlap s1 d1 s2 d2) :=
  inferInstanceAs (Decidable (_ ∧ _))

/-- No two distinct clips of the state that sit on the same track have
intersecting intervals. -/
def StateNoOverlap (s : TimelineState) : Prop :=
  List.Pairwise
    (fun c1 c2 => c1.trackId = c2.trackId →
      ¬ intervalsOverlap c1.timelineStart c1.duration c2.timelineStart c2.duration)
    s.clips

/-- The 5-second trailing margin past every clip. -/
def DurationInvariant (s : TimelineState) : Prop :=
  ∀ c ∈ s.clips, c.timelineStart + c.duration + 5 ≤ s.duration

/-- Concrete clip builder for fixtures: a plain video clip with the given
id, track, start and duration. -/
def mkClip (id : String) (tr : Int) (st d : ℚ) : Clip :=
  { id := id, assetId := none, trackId := tr, type := ClipType.video,
    timelineStart := st, inPoint := 0, duration := d, transform := DEFAULT_TRANSFORM,
    zIndex := (tr : ℚ), label := id, textData := none, transition := none, volume := 1 }

/-- Concrete state builder for fixtures. -/
def mkState (assets : List MediaAsset) (clips : List Clip) (sel : Option String) : TimelineState :=
  { assets := assets, tracks := [], clips := clips, duration := 60, currentTime := 0,
    isPlaying := false, selectedClipId := sel, zoom := 50,
    canvasSize := { width := 1920, height := 1080, name := "1080p" } }

/-- Fixture for the C2 counterexample: [8,12), [15,18) and [20,30) on
track 0, pairwise disjoint. -/
def stC2 : TimelineState :=
  mkState [] [mkClip "a" 0 8 4, mkClip "d" 0 15 3, mkClip "c" 0 20 10] none

/-- The dragged clip of the C2 counterexample. -/
def clipC2 : Clip := mkClip "c" 0 20 10

/-- Fixture for the C2 witness: [0,5) and [10,14) on track 0. -/
def stC2w : TimelineState := mkState [] [mkClip "o" 0 0 5, mkClip "c" 0 10 4] none

/-- The dragged clip of the C2 witness. -/
def clipC2w : Clip := mkClip "c" 0 10 4

/-- A five-second image asset. -/
def imgAsset : MediaAsset :=
  { id := "img", url := "u", type := AssetType.image, duration := 5, name := "i.png" }

/-- An image clip backed by imgAsset, occupying [0,5). -/
def imgClip : Clip :=
  { id := "ic", assetId := some "img", trackId := 2, type := ClipType.image,
    timelineStart := 0, inPoint := 0, duration := 5, transform := DEFAULT_TRANSFORM,
    zIndex := 2, label := "i", textData := none, transition := some defaultTransition, volume := 1 }

/-- Fixture for the C4 counterexample: a single image clip of an asset
with native duration 5. -/
def stC4 : TimelineState := mkState [imgAsset] [imgClip] none

/-- A ten-second video asset. -/
def vidAsset : MediaAsset :=
  { id := "vid", url := "u", type := AssetType.video, duration := 10, name := "v.mp4" }

/-- A video clip backed by vidAsset, occupying [0,5). -/
def vidClip : Clip :=
  { id := "vc", assetId := some "vid", trackId := 0, type := ClipType.video,
    timelineStart := 0, inPoint := 0, duration := 5, transform := DEFAULT_TRANSFORM,
    zIndex := 0, label := "v", textData := none, transition := some defaultTransition, volume := 1 }

/-- Fixture for the C4 witness: the video clip followed by a neighbor
starting at 8 on the same track. -/
def stC4w : TimelineState := mkState [vidAsset] [vidClip, mkClip "n" 0 8 2] none

/-- Fixture for the C5 witness: the dragged clip [10,15) with inPoint 2
between neighbors [0,10) and [18,25). -/
def clipC5 : Clip :=
  { id := "c", assetId := none, trackId := 0, type := ClipType.video,
    timelineStart := 10, inPoint := 2, duration := 5, transform := DEFAULT_TRANSFORM,
    zIndex := 0, label := "c", textData := none, transition := none, volume := 1 }

/-- The C5 witness state. -/
def stC5 : TimelineState := mkState [] [mkClip "p" 0 0 10, clipC5, mkClip "n" 0 18 7] none

/-- Fixture for the C7 and C8 scenarios: two clips, clip a selected. -/
def stC7 : TimelineState := mkState [] [mkClip "a" 0 0 5, mkClip "b" 0 6 5] (some "a")

/-- First of two equal-zIndex clips of the C9 witness. -/
def clipZ1 : Clip := mkClip "z1" 0 0 5

/-- Second of two equal-zIndex clips of the C9 witness. -/
def clipZ2 : Clip := mkClip "z2" 0 6 5

/-- The C9 witness state: a higher-z clip inserted first, then the two
equal-zIndex clips in insertion order. -/
def stC9 : TimelineState := mkState [] [mkClip "top" 1 0 5, clipZ1, clipZ2] none

/-- The occupied interval of the C1 witness, spec scenario 2: a clip on
[0,5) with a new 5-second clip requested at preferred start 3. -/
def clipA1 : Clip := mkClip "a1" 0 0 5

/-!
Claim theorems.
-/

/-- Auxiliary: mapping a function that fixes every member is the identity. -/
theorem map_noop {α : Type} (l : List α) (f : α → α) (h : ∀ a ∈ l, f a = a) : l.map f = l := by
  induction l with
  | nil => rfl
  | cons x xs ih =>
      simp only [List.map_cons, h x (List.mem_cons_self x xs),
        ih (fun a ha => h a (List.mem_cons_of_mem x ha))]

/-- C10: totalDuration is monotonically non-decreasing: no command, in
particular not RemoveClip, ever shrinks the duration field of the state. -/
theorem duration_monotone (s : TimelineState) (a : Action) :
    s.duration ≤ (timelineReducer s a).duration := by
  cases a with
  | addAsset p => exact le_refl _
  | addClip p => exact le_max_left _ _
  | addClipSmart newId assetId trackId d ty n td => exact le_max_left _ _
  | updateClip id ch =>
      simp only [timelineReducer]
      split
      · exact le_refl _
      · exact le_max_left _ _
  | removeClip id => exact le_refl _
  | setPlayhead p => exact le_refl _
  | togglePlayback => exact le_refl _
  | selectClip p => exact le_refl _
  | setZoom p => exact le_refl _
  | updateTrack id ch => exact le_refl _
  | setCanvasSize p => exact le_refl _

/-- C3: the exec-argument list built by exportVideo is a pure function of
the TimelineState alone: compiling equal states yields byte-identical
argument lists. -/
theorem buildExecArgs_deterministic (s t : TimelineState) (h : s = t) :
    buildExecArgs s = buildExecArgs t := congrArg buildExecArgs h

/-- Witness for C3 at a concrete state. -/
theorem buildExecArgs_deterministic_witness :
    buildExecArgs stC4 = buildExecArgs stC4 :=
  buildExecArgs_deterministic stC4 stC4 rfl

/-- C9: the compiler's clip ordering is stable: two clips with equal
zIndex keep their insertion order in activeClips, the zIndex-sorted list
that drives the filter graph. -/
theorem activeClips_stable (s : TimelineState) (a b : Clip)
    (hz : a.zIndex = b.zIndex) (hab : List.Sublist [a, b] s.clips) :
    List.Sublist [a, b] (activeClips s) := by
  show List.Sublist [a, b] (List.insertionSort zLE s.clips)
  exact List.pair_sublist_insertionSort (show zLE a b from le_of_eq hz) hab

/-- Witness for C9: the equal-zIndex pair keeps its order below the
higher-zIndex clip that was inserted first. -/
theorem activeClips_stable_witness :
    List.Sublist [clipZ1, clipZ2] (activeClips stC9) :=
  activeClips_stable stC9 clipZ1 clipZ2 rfl
    (List.Sublist.cons _ (List.Sublist.refl _))

/-- C8 amended: RemoveClip clears selectedClipId unconditionally, whether
or not the removed clip was selected, and leaves every field except clips
and selectedClipId untouched. -/
theorem removeClip_frame (s : TimelineState) (id : String) :
    timelineReducer s (Action.removeClip id) =
      { s with clips := s.clips.filter (fun c => c.id ≠ id), selectedClipId := none } := rfl

/-- C8 counterexample: clip b exists and is not the selected clip, yet
removing it does not leave the selection untouched. -/
theorem removeClip_selection_cex :
    stC7.selectedClipId = some "a" ∧
    mkClip "b" 0 6 5 ∈ stC7.clips ∧
    (timelineReducer stC7 (Action.removeClip "b")).selectedClipId ≠ some "a" := by
  refine ⟨rfl, ?_, ?_⟩
  · simp [stC7, mkState]
  · simp [timelineReducer, stC7, mkState]

/-- C7 amended: the reducer is a total function; UpdateClip and
UpdateTrack aimed at unknown ids return the state completely unchanged,
while RemoveClip with an unknown id leaves every field unchanged except
selectedClipId, which it sets to none. -/
theorem unknown_targets (s : TimelineState) (cid : String) (ch : ClipChanges)
    (tid : Int) (tch : TrackChanges)
    (hc : ∀ c ∈ s.clips, c.id ≠ cid) (ht : ∀ t ∈ s.tracks, t.id ≠ tid) :
    timelineReducer s (Action.updateClip cid ch) = s ∧
    timelineReducer s (Action.updateTrack tid tch) = s ∧
    timelineReducer s (Action.removeClip cid) = { s with selectedClipId := none } := by
  refine ⟨?_, ?_, ?_⟩
  · have hf : s.clips.find? (fun c => c.id = cid) = none :=
      List.find?_eq_none.mpr (fun c hcm => by simp [hc c hcm])
    simp only [timelineReducer, hf]
  · have hm : s.tracks.map (fun t => if t.id = tid then applyTrackChanges t tch else t) = s.tracks :=
      map_noop _ _ (fun t htm => if_neg (ht t htm))
    simp only [timelineReducer, hm]
  · have hfil : s.clips.filter (fun c => c.id ≠ cid) = s.clips :=
      List.filter_eq_self.mpr (fun c hcm => by simp [hc c hcm])
    simp only [timelineReducer, hfil]

/-- Witness for C7 at a concrete state and unknown clip and track ids. -/
theorem unknown_targets_witness :
    timelineReducer stC7 (Action.updateClip "zzz" {}) = stC7 ∧
    timelineReducer stC7 (Action.updateTrack 99 {}) = stC7 ∧
    timelineReducer stC7 (Action.removeClip "zzz") = { stC7 with selectedClipId := none } :=
  unknown_targets stC7 "zzz" {} 99 {}
    (by simp [stC7, mkState, mkClip]) (by simp [stC7, mkState])

/-- C7 counterexample: RemoveClip with an id matching no clip is not a
silent no-op: it still clears a live selection. -/
theorem unknown_remove_cex :
    (∀ c ∈ stC7.clips, c.id ≠ "zzz") ∧
    timelineReducer stC7 (Action.removeClip "zzz") ≠ stC7 := by
  constructor
  · simp [stC7, mkState, mkClip]
  · intro h
    have h2 := congrArg TimelineState.selectedClipId h
    simp [timelineReducer, stC7, mkState] at h2

/-- Auxiliary: members of a keyed in-place replacement are the replacement
or old members. -/
theorem mem_replace {l : List Clip} {u : Clip} {pid : String} {c : Clip}
    (h : c ∈ l.map (fun x => if x.id = pid then u else x)) : c = u ∨ c ∈ l := by
  obtain ⟨y, hy, hyy⟩ := List.mem_map.mp h
  by_cases hid : y.id = pid
  · rw [if_pos hid] at hyy
    exact Or.inl hyy.symm
  · rw [if_neg hid] at hyy
    exact Or.inr (hyy ▸ hy)

/-- Auxiliary: members of an upserted clip list are the new clip or old
members. -/
theorem mem_upsertClip {l : List Clip} {p c : Clip} (h : c ∈ upsertClip l p) :
    c = p ∨ c ∈ l := by
  unfold upsertClip at h
  split at h
  · exact mem_replace h
  · rcases List.mem_append.mp h with h1 | h1
    · exact Or.inr h1
    · exact Or.inl (List.mem_singleton.mp h1)

/-- Auxiliary: every command preserves the 5-second trailing margin. -/
theorem durationInvariant_step (s : TimelineState) (a : Action)
    (h : DurationInvariant s) : DurationInvariant (timelineReducer s a) := by
  cases a with
  | addAsset p => exact h
  | addClip p =>
      intro c hc
      simp only [timelineReducer] at hc ⊢
      rcases mem_upsertClip hc with rfl | hcm
      · exact le_max_right _ _
      · exact le_trans (h c hcm) (le_max_left _ _)
  | addClipSmart newId assetId trackId d ty n td =>
      intro c hc
      simp only [timelineReducer] at hc ⊢
      rcases mem_upsertClip hc with rfl | hcm
      · exact le_max_right _ _
      · exact le_trans (h c hcm) (le_max_left _ _)
  | updateClip id ch =>
      intro c hc
      simp only [timelineReducer] at hc ⊢
      split at hc
      · exact h c hc
      · simp only at hc ⊢
        rcases mem_replace hc with rfl | hcm
        · exact le_max_right _ _
        · exact le_trans (h c hcm) (le_max_left _ _)
  | removeClip id =>
      intro c hc
      exact h c (List.mem_of_mem_filter hc)
  | setPlayhead p => exact h
  | togglePlayback => exact h
  | selectClip p => exact h
  | setZoom p => exact h
  | updateTrack id ch => exact h
  | setCanvasSize p => exact h

/-- C6: duration auto-extend: in every state reachable from the initial
state through the reducer, every clip's end plus the 5-second trailing
margin is bounded by totalDuration; Add and Update maintain it through
the max with clip end plus 5. -/
theorem reachable_duration_margin (d0 : ℚ) (canv : CanvasSize) (actions : List Action)
    (c : Clip) (hc : c ∈ (runActions (createInitialState d0 canv) actions).clips) :
    c.timelineStart + c.duration + 5 ≤
      (runActions (createInitialState d0 canv) actions).duration := by
  have key : ∀ (l : List Action) (s : TimelineState), DurationInvariant s →
      DurationInvariant (runActions s l) := by
    intro l
    induction l with
    | nil => exact fun s hs => hs
    | cons a as ih => exact fun s hs => ih _ (durationInvariant_step s a hs)
  have hinit : DurationInvariant (createInitialState d0 canv) := by
    intro x hx
    simp [createInitialState] at hx
  exact key actions (createInitialState d0 canv) hinit c hc

/-- Auxiliary: the free-slot scan never moves the proposal backwards. -/
theorem le_slotFold (d : ℚ) (l : List Clip) : ∀ p : ℚ, p ≤ l.foldl (slotStep d) p := by
  induction l with
  | nil => exact fun p => le_refl p
  | cons x xs ih =>
      intro p
      rw [List.foldl_cons]
      refine le_trans ?_ (ih (slotStep d p x))
      simp only [slotStep]
      split
      · next hcond => exact le_of_lt hcond.2
      · exact le_refl p

/-- Auxiliary: a proposal ending at or before every clip of the list is
left unchanged by the scan. -/
theorem slotFold_of_all_right (d : ℚ) (l : List Clip) (p : ℚ)
    (h : ∀ x ∈ l, p + d ≤ x.timelineStart) : l.foldl (slotStep d) p = p := by
  induction l with
  | nil => rfl
  | cons x xs ih =>
      have hx := h x (List.mem_cons_self x xs)
      have hstep : slotStep d p x = p := by
        simp only [slotStep]
        exact if_neg (fun hcond => absurd hcond.1 (not_lt.mpr hx))
      rw [List.foldl_cons, hstep]
      exact ih (fun y hy => h y (List.mem_cons_of_mem x hy))

/-- Auxiliary: scanning a start-sorted clip list yields a start whose
interval clears every clip of the list. -/
theorem slotFold_no_overlap (d : ℚ) : ∀ (l : List Clip) (p : ℚ),
    List.Sorted startLE l →
    ∀ x ∈ l, ¬ intervalsOverlap (l.foldl (slotStep d) p) d x.timelineStart x.duration := by
  intro l
  induction l with
  | nil => intro p _ x hx; cases hx
  | cons a as ih =>
      intro p hs x hx
      have has : List.Sorted startLE as := hs.of_cons
      have hrel : ∀ y ∈ as, startLE a y := List.rel_of_sorted_cons hs
      rw [List.foldl_cons]
      rcases List.mem_cons.mp hx with rfl | hxs
      · by_cases hov : x.timelineStart < p + d ∧ x.timelineStart + x.duration > p
        · have hstep : slotStep d p x = x.timelineStart + x.duration := by
            simp only [slotStep]
            exact if_pos hov
          rw [hstep]
          have hle := le_slotFold d as (x.timelineStart + x.duration)
          intro hcon
          exact absurd hcon.2 (not_lt.mpr hle)
        · have hstep : slotStep d p x = p := by
            simp only [slotStep]
            exact if_neg hov
          rw [hstep]
          rcases not_and_or.mp hov with h1 | h2
          · have hall : ∀ y ∈ as, p + d ≤ y.timelineStart := fun y hy =>
              le_trans (not_lt.mp h1) (hrel y hy)
            rw [slotFold_of_all_right d as p hall]
            intro hcon
            exact absurd hcon.1 (not_lt.mpr (not_lt.mp h1))
          · have hle := le_slotFold d as p
            intro hcon
            exact absurd hcon.2 (not_lt.mpr (le_trans (not_lt.mp h2) hle))
      · exact ih (slotStep d p a) has x hxs

/-- Auxiliary: the scan result is below every conflict-free start at or
after the proposal. -/
theorem slotFold_min (d : ℚ) : ∀ (l : List Clip) (p s : ℚ), p ≤ s →
    (∀ x ∈ l, ¬ intervalsOverlap s d x.timelineStart x.duration) →
    l.foldl (slotStep d) p ≤ s := by
  intro l
  induction l with
  | nil => exact fun p s hps _ => hps
  | cons a as ih =>
      intro p s hps hfree
      rw [List.foldl_cons]
      refine ih (slotStep d p a) s ?_ (fun x hx => hfree x (List.mem_cons_of_mem a hx))
      simp only [slotStep]
      split
      · next hov =>
          rcases not_and_or.mp (hfree a (List.mem_cons_self a as)) with h1 | h2
          · exfalso
            have hsd := not_lt.mp h1
            have := hov.1
            linarith
          · exact not_lt.mp h2
      · exact hps

/-- C1: for pairwise non-overlapping clips on a track, findNextFreeSlot
returns a start at or after preferredStart whose interval intersects no
clip of the track, and it is the minimal such start. -/
theorem findNextFreeSlot_correct (clips : List Clip) (trackId : Int)
    (duration preferredStart : ℚ)
    (_hnov : List.Pairwise (fun c1 c2 => c1.trackId = trackId → c2.trackId = trackId →
      ¬ intervalsOverlap c1.timelineStart c1.duration c2.timelineStart c2.duration) clips) :
    preferredStart ≤ findNextFreeSlot clips trackId duration preferredStart ∧
    (∀ c ∈ clips, c.trackId = trackId →
      ¬ intervalsOverlap (findNextFreeSlot clips trackId duration preferredStart) duration
        c.timelineStart c.duration) ∧
    ∀ s, preferredStart ≤ s →
      (∀ c ∈ clips, c.trackId = trackId →
        ¬ intervalsOverlap s duration c.timelineStart c.duration) →
      findNextFreeSlot clips trackId duration preferredStart ≤ s := by
  have hsorted : List.Sorted startLE
      (List.insertionSort startLE (clips.filter (fun c => c.trackId = trackId))) :=
    List.sorted_insertionSort startLE _
  have hmem : ∀ c : Clip,
      c ∈ List.insertionSort startLE (clips.filter (fun c => c.trackId = trackId)) ↔
      c ∈ clips ∧ c.trackId = trackId := by
    intro c
    rw [List.mem_insertionSort, List.mem_filter]
    simp
  refine ⟨?_, ?_, ?_⟩
  · exact le_slotFold duration _ preferredStart
  · intro c hcm hct
    exact slotFold_no_overlap duration _ preferredStart hsorted c ((hmem c).mpr ⟨hcm, hct⟩)
  · intro s hps hfree
    exact slotFold_min duration _ preferredStart s hps
      (fun x hx => hfree x ((hmem x).mp hx).1 ((hmem x).mp hx).2)

/-- Witness for C1, spec scenario 2: with [0,5) occupied, a 5-second clip
preferred at 3 lands at the minimal conflict-free start. -/
theorem findNextFreeSlot_correct_witness :
    3 ≤ findNextFreeSlot [clipA1] 0 5 3 ∧
    (∀ c ∈ [clipA1], c.trackId = 0 →
      ¬ intervalsOverlap (findNextFreeSlot [clipA1] 0 5 3) 5 c.timelineStart c.duration) ∧
    ∀ s, (3:ℚ) ≤ s →
      (∀ c ∈ [clipA1], c.trackId = 0 → ¬ intervalsOverlap s 5 c.timelineStart c.duration) →
      findNextFreeSlot [clipA1] 0 5 3 ≤ s :=
  findNextFreeSlot_correct [clipA1] 0 5 3 (List.pairwise_singleton _ _)

/-- Auxiliary: the head of a list, when present, is a member. -/
theorem mem_of_head?_eq_some {α : Type} {l : List α} {a : α} (h : l.head? = some a) : a ∈ l := by
  cases l with
  | nil => exact absurd h (by simp)
  | cons x xs =>
      rw [List.head?_cons] at h
      injection h with h2
      subst h2
      exact List.mem_cons_self x xs

/-- Auxiliary: the preceding clip selected by TRIM_START really ends at or
before the dragged clip's start. -/
theorem prevClipOf_end_le (state : TimelineState) (c : Clip) (p : Clip)
    (h : prevClipOf state c = some p) :
    p.timelineStart + p.duration ≤ c.timelineStart := by
  simp only [prevClipOf] at h
  have hp := mem_of_head?_eq_some h
  rw [List.mem_insertionSort, List.mem_filter] at hp
  simpa using hp.2

/-- Auxiliary: the following clip selected by TRIM_END really starts at or
after the dragged clip's end. -/
theorem nextClipOf_start_ge (state : TimelineState) (c : Clip) (n : Clip)
    (h : nextClipOf state c = some n) :
    c.timelineStart + c.duration ≤ n.timelineStart := by
  simp only [nextClipOf] at h
  have hp := mem_of_head?_eq_some h
  rw [List.mem_insertionSort, List.mem_filter] at hp
  simpa using hp.2

/-- Auxiliary: the TRIM_START floor arithmetic over plain rationals, no
preceding clip. -/
theorem tsCoreNone (ts dur ip δ : ℚ) (hin : 0 ≤ ip) (hdur : 1/10 ≤ dur)
    (hts : 0 ≤ ts) :
    let pIn0 := ip + δ
    let pDur0 := dur - δ
    let pIn1 := if pIn0 < 0 then 0 else pIn0
    let pDur1 := if pIn0 < 0 then dur + ip else pDur0
    let pIn2 := if pDur1 < 1/10 then ip + (dur - 1/10) else pIn1
    let pDur2 := if pDur1 < 1/10 then 1/10 else pDur1
    let pStart2 := ts + (pIn2 - ip)
    let diff1 : ℚ := 0
    let pIn3 := pIn2 + diff1
    let pDur3 := pDur2 - diff1
    let pStart3 := pStart2 + diff1
    let diff2 := if pStart3 < 0 then 0 - pStart3 else 0
    0 ≤ pIn3 + diff2 ∧ 1/10 ≤ pDur3 - diff2 ∧ 0 ≤ pStart3 + diff2 := by
  dsimp only
  split_ifs <;> exact ⟨by linarith, by linarith, by linarith⟩

/-- Auxiliary: the TRIM_START floor arithmetic over plain rationals, with
a preceding clip ending at pe at or before the original start. -/
theorem tsCoreSome (ts dur ip δ pe : ℚ) (hin : 0 ≤ ip) (hdur : 1/10 ≤ dur)
    (hts : 0 ≤ ts) (hpe : pe ≤ ts) :
    let pIn0 := ip + δ
    let pDur0 := dur - δ
    let pIn1 := if pIn0 < 0 then 0 else pIn0
    let pDur1 := if pIn0 < 0 then dur + ip else pDur0
    let pIn2 := if pDur1 < 1/10 then ip + (dur - 1/10) else pIn1
    let pDur2 := if pDur1 < 1/10 then 1/10 else pDur1
    let pStart2 := ts + (pIn2 - ip)
    let diff1 := if pStart2 < pe then pe - pStart2 else 0
    let pIn3 := pIn2 + diff1
    let pDur3 := pDur2 - diff1
    let pStart3 := pStart2 + diff1
    let diff2 := if pStart3 < 0 then 0 - pStart3 else 0
    0 ≤ pIn3 + diff2 ∧ 1/10 ≤ pDur3 - diff2 ∧ 0 ≤ pStart3 + diff2 ∧
      pe ≤ pStart3 + diff2 := by
  dsimp only
  split_ifs <;> exact ⟨by linarith, by linarith, by linarith, by linarith⟩

/-- Auxiliary: the four TRIM_START floors. -/
theorem trimStart_bounds (state : TimelineState) (c : Clip) (deltaSec : ℚ)
    (hin : 0 ≤ c.inPoint) (hdur : 1/10 ≤ c.duration) (hstart : 0 ≤ c.timelineStart) :
    0 ≤ (applyClipChanges c (resolveTrimStart state c deltaSec)).inPoint ∧
    1/10 ≤ (applyClipChanges c (resolveTrimStart state c deltaSec)).duration ∧
    0 ≤ (applyClipChanges c (resolveTrimStart state c deltaSec)).timelineStart ∧
    ∀ p, prevClipOf state c = some p →
      p.timelineStart + p.duration ≤
        (applyClipChanges c (resolveTrimStart state c deltaSec)).timelineStart := by
  cases hp : prevClipOf state c with
  | none =>
      have hcore := tsCoreNone c.timelineStart c.duration c.inPoint deltaSec hin hdur hstart
      dsimp only at hcore
      simp only [resolveTrimStart, applyClipChanges, hp, Option.getD_some]
      refine ⟨hcore.1, hcore.2.1, hcore.2.2, ?_⟩
      intro q hq
      cases hq
  | some p =>
      have hpe := prevClipOf_end_le state c p hp
      have hcore := tsCoreSome c.timelineStart c.duration c.inPoint deltaSec
        (p.timelineStart + p.duration) hin hdur hstart hpe
      dsimp only at hcore
      simp only [resolveTrimStart, applyClipChanges, hp, Option.getD_some]
      refine ⟨hcore.1, hcore.2.1, hcore.2.2.1, ?_⟩
      intro q hq
      injection hq with hq2
      subst hq2
      exact hcore.2.2.2

/-- Auxiliary: the TRIM_END floor arithmetic over plain rationals, no
following clip. -/
theorem teCoreNone (dur ip δ maxD : ℚ) (_hdur : 1/10 ≤ dur) :
    let pd0 := dur + δ
    let pd1 := if ip + pd0 > maxD then maxD - ip else pd0
    let pd2 := if pd1 < 1/10 then 1/10 else pd1
    1/10 ≤ pd2 := by
  dsimp only
  split_ifs <;> linarith

/-- Auxiliary: the TRIM_END floor arithmetic over plain rationals, with a
following clip starting at ns at or after the original end. -/
theorem teCoreSome (ts dur ip δ maxD ns : ℚ) (hdur : 1/10 ≤ dur)
    (hns : ts + dur ≤ ns) :
    let pd0 := dur + δ
    let pd1 := if ip + pd0 > maxD then maxD - ip else pd0
    let pd2 := if pd1 < 1/10 then 1/10 else pd1
    let pd3 := if ts + pd2 > ns then ns - ts else pd2
    1/10 ≤ pd3 := by
  dsimp only
  split_ifs <;> linarith

/-- Auxiliary: the TRIM_END ceiling arithmetic over plain rationals, no
following clip. -/
theorem teCeilNone (dur ip δ maxD : ℚ) (hrem : 1/10 ≤ maxD - ip) :
    let pd0 := dur + δ
    let pd1 := if ip + pd0 > maxD then maxD - ip else pd0
    let pd2 := if pd1 < 1/10 then 1/10 else pd1
    pd2 ≤ maxD - ip := by
  dsimp only
  split_ifs <;> linarith

/-- Auxiliary: the TRIM_END ceiling and next-clip arithmetic over plain
rationals, with a following clip. -/
theorem teCeilSome (ts dur ip δ maxD ns : ℚ) (hrem : 1/10 ≤ maxD - ip) :
    let pd0 := dur + δ
    let pd1 := if ip + pd0 > maxD then maxD - ip else pd0
    let pd2 := if pd1 < 1/10 then 1/10 else pd1
    let pd3 := if ts + pd2 > ns then ns - ts else pd2
    pd3 ≤ maxD - ip ∧ ts + pd3 ≤ ns := by
  dsimp only
  split_ifs <;> exact ⟨by linarith, by linarith⟩

/-- Auxiliary: the TRIM_END duration floor. -/
theorem trimEnd_floor (state : TimelineState) (c : Clip) (deltaSec : ℚ)
    (hdur : 1/10 ≤ c.duration) :
    1/10 ≤ (applyClipChanges c (resolveTrimEnd state c deltaSec)).duration := by
  cases hn : nextClipOf state c with
  | none =>
      have hcore := teCoreNone c.duration c.inPoint deltaSec
        (maxDurationOf state.assets c) hdur
      dsimp only at hcore
      simp only [resolveTrimEnd, applyClipChanges, hn, Option.getD_some]
      exact hcore
  | some n =>
      have hng := nextClipOf_start_ge state c n hn
      have hcore := teCoreSome c.timelineStart c.duration c.inPoint deltaSec
        (maxDurationOf state.assets c) n.timelineStart hdur hng
      dsimp only at hcore
      simp only [resolveTrimEnd, applyClipChanges, hn, Option.getD_some]
      exact hcore

/-- C5: trim floors: for every pointer delta and neighbor configuration,
a TRIM_START changeset keeps inPoint at or above 0, duration at or above
0.1, the new start at or above 0 and at or past the preceding clip's end;
a TRIM_END changeset keeps duration at or above 0.1 and leaves inPoint
untouched (hence nonnegative). -/
theorem trim_floors (state : TimelineState) (c : Clip) (deltaSec : ℚ)
    (hin : 0 ≤ c.inPoint) (hdur : 1/10 ≤ c.duration) (hstart : 0 ≤ c.timelineStart) :
    0 ≤ (applyClipChanges c (resolveTrimStart state c deltaSec)).inPoint ∧
    1/10 ≤ (applyClipChanges c (resolveTrimStart state c deltaSec)).duration ∧
    0 ≤ (applyClipChanges c (resolveTrimStart state c deltaSec)).timelineStart ∧
    (∀ p, prevClipOf state c = some p →
      p.timelineStart + p.duration ≤
        (applyClipChanges c (resolveTrimStart state c deltaSec)).timelineStart) ∧
    1/10 ≤ (applyClipChanges c (resolveTrimEnd state c deltaSec)).duration ∧
    0 ≤ (applyClipChanges c (resolveTrimEnd state c deltaSec)).inPoint := by
  obtain ⟨h1, h2, h3, h4⟩ := trimStart_bounds state c deltaSec hin hdur hstart
  refine ⟨h1, h2, h3, h4, trimEnd_floor state c deltaSec hdur, ?_⟩
  cases hn : nextClipOf state c with
  | none =>
      simp only [resolveTrimEnd, applyClipChanges, hn, Option.getD_none]
      exact hin
  | some n =>
      simp only [resolveTrimEnd, applyClipChanges, hn, Option.getD_none]
      exact hin

/-- Witness for C5: the clip [10,15) with inPoint 2 between [0,10) and
[18,25), dragged left by 4 seconds. -/
theorem trim_floors_witness :
    0 ≤ (applyClipChanges clipC5 (resolveTrimStart stC5 clipC5 (-4))).inPoint ∧
    1/10 ≤ (applyClipChanges clipC5 (resolveTrimStart stC5 clipC5 (-4))).duration ∧
    0 ≤ (applyClipChanges clipC5 (resolveTrimStart stC5 clipC5 (-4))).timelineStart ∧
    (∀ p, prevClipOf stC5 clipC5 = some p →
      p.timelineStart + p.duration ≤
        (applyClipChanges clipC5 (resolveTrimStart stC5 clipC5 (-4))).timelineStart) ∧
    1/10 ≤ (applyClipChanges clipC5 (resolveTrimEnd stC5 clipC5 (-4))).duration ∧
    0 ≤ (applyClipChanges clipC5 (resolveTrimEnd stC5 clipC5 (-4))).inPoint :=
  trim_floors stC5 clipC5 (-4) (by norm_num [clipC5]) (by norm_num [clipC5])
    (by norm_num [clipC5])

/-- C4 amended: for an asset-backed clip whose asset resolves and whose
remaining playable length assetDuration - inPoint is at least the 0.1
floor, a TRIM_END changeset never exceeds that remaining length (image
clips get the same asset ceiling), and the new end never crosses the
start of the following clip on the track. -/
theorem trimEnd_ceiling (state : TimelineState) (c : Clip) (deltaSec : ℚ)
    (aid : String) (asset : MediaAsset) (ha : c.assetId = some aid)
    (hfind : state.assets.find? (fun a => a.id = aid) = some asset)
    (hrem : 1/10 ≤ asset.duration - c.inPoint) :
    (applyClipChanges c (resolveTrimEnd state c deltaSec)).duration ≤
      asset.duration - c.inPoint ∧
    ∀ n, nextClipOf state c = some n →
      c.timelineStart + (applyClipChanges c (resolveTrimEnd state c deltaSec)).duration ≤
        n.timelineStart := by
  have hmax : maxDurationOf state.assets c = asset.duration := by
    simp only [maxDurationOf, ha, hfind]
  have hrem2 : 1/10 ≤ maxDurationOf state.assets c - c.inPoint := by
    rw [hmax]
    exact hrem
  cases hn : nextClipOf state c with
  | none =>
      have hcore := teCeilNone c.duration c.inPoint deltaSec
        (maxDurationOf state.assets c) hrem2
      dsimp only at hcore
      rw [hmax] at hcore
      simp only [resolveTrimEnd, applyClipChanges, hn, hmax, Option.getD_some]
      refine ⟨hcore, ?_⟩
      intro n hcon
      cases hcon
  | some n =>
      have hcore := teCeilSome c.timelineStart c.duration c.inPoint deltaSec
        (maxDurationOf state.assets c) n.timelineStart hrem2
      dsimp only at hcore
      rw [hmax] at hcore
      simp only [resolveTrimEnd, applyClipChanges, hn, hmax, Option.getD_some]
      refine ⟨hcore.1, ?_⟩
      intro m hm
      injection hm with hm2
      subst hm2
      exact hcore.2

/-- Witness for C4: the [0,5) video clip of a 10-second asset trimmed by
+20s with a neighbor at 8. -/
theorem trimEnd_ceiling_witness :
    (applyClipChanges vidClip (resolveTrimEnd stC4w vidClip 20)).duration ≤
      vidAsset.duration - vidClip.inPoint ∧
    ∀ n, nextClipOf stC4w vidClip = some n →
      vidClip.timelineStart + (applyClipChanges vidClip (resolveTrimEnd stC4w vidClip 20)).duration ≤
        n.timelineStart :=
  trimEnd_ceiling stC4w vidClip 20 "vid" vidAsset rfl rfl
    (by norm_num [vidAsset, vidClip])

/-- C4 counterexample: the image-backed clip [0,5) of a 5-second image
asset trimmed by +20s clamps to the asset ceiling 5; the effectively
unbounded image ceiling the claim asserts would give 25. -/
theorem trimEnd_image_cex :
    (applyClipChanges imgClip (resolveTrimEnd stC4 imgClip 20)).duration = 5 ∧
    (applyClipChanges imgClip (resolveTrimEnd stC4 imgClip 20)).duration ≠ 25 := by
  have h : (applyClipChanges imgClip (resolveTrimEnd stC4 imgClip 20)).duration = 5 := by
    norm_num +decide [resolveTrimEnd, applyClipChanges, maxDurationOf, nextClipOf, stC4,
      mkState, imgClip, imgAsset, List.find?, startLE]
  refine ⟨h, ?_⟩
  rw [h]
  norm_num

/-- Auxiliary: a scan whose every step can only keep or raise the value
never lowers it. -/
theorem le_foldl_of_steps (f : ℚ → Clip → ℚ) (l : List Clip)
    (h : ∀ x ∈ l, ∀ v, v ≤ f v x) : ∀ v, v ≤ l.foldl f v := by
  induction l with
  | nil => exact fun v => le_refl v
  | cons x xs ih =>
      intro v
      rw [List.foldl_cons]
      exact le_trans (h x (List.mem_cons_self x xs) v)
        (ih (fun y hy w => h y (List.mem_cons_of_mem x hy) w) (f v x))

/-- C2 amended: on a track where the dragged clip overlaps no other clip,
a MOVE proposal that overlaps a neighbor the clip originally started at or
after resolves to a start at or past that neighbor's end: the dragged clip
never lands inside such a neighbor.  (The resolver clamps only against
clips the raw proposal overlaps, so the resolved interval can still
intersect other clips: the global no-overlap invariant is not preserved;
see the counterexample.) -/
theorem resolveMove_clamps_to_neighbor_end (state : TimelineState) (c : Clip)
    (deltaSec : ℚ) (o : Clip) (ho : o ∈ state.clips) (hot : o.trackId = c.trackId)
    (hoid : o.id ≠ c.id) (hcd : 0 < c.duration)
    (hdurs : ∀ x ∈ state.clips, 0 ≤ x.duration)
    (hnov : ∀ x ∈ state.clips, x.trackId = c.trackId → x.id ≠ c.id →
      ¬ intervalsOverlap c.timelineStart c.duration x.timelineStart x.duration)
    (hstart : o.timelineStart ≤ c.timelineStart)
    (hovp : intervalsOverlap (max 0 (c.timelineStart + deltaSec)) c.duration
      o.timelineStart o.duration) :
    o.timelineStart + o.duration ≤ resolveMove state c c.trackId deltaSec := by
  have hsteps : ∀ x ∈ List.insertionSort startLE
      (state.clips.filter (fun y => y.trackId = c.trackId ∧ y.id ≠ c.id)),
      ∀ v, v ≤ moveStep c (max 0 (c.timelineStart + deltaSec)) v x := by
    intro x hx v
    have hx2 : x ∈ state.clips ∧ (x.trackId = c.trackId ∧ x.id ≠ c.id) := by
      have hm := (List.mem_insertionSort startLE).mp hx
      rw [List.mem_filter] at hm
      exact ⟨hm.1, by simpa using hm.2⟩
    simp only [moveStep]
    split
    · next hov =>
        split
        · next hlt =>
            exfalso
            have hxd := hdurs x hx2.1
            have hxge : c.timelineStart + c.duration ≤ x.timelineStart := by
              rcases not_and_or.mp (hnov x hx2.1 hx2.2.1 hx2.2.2) with hA | hB
              · exact not_lt.mp hA
              · exfalso
                have := not_lt.mp hB
                linarith
            have hoend : o.timelineStart + o.duration ≤ c.timelineStart := by
              rcases not_and_or.mp (hnov o ho hot hoid) with hA2 | hB2
              · exfalso
                have := not_lt.mp hA2
                linarith
              · exact not_lt.mp hB2
            have h1 := hovp.2
            have h2 := hov.2
            linarith
        · exact le_max_left _ _
    · exact le_refl v
  have homem : o ∈ List.insertionSort startLE
      (state.clips.filter (fun y => y.trackId = c.trackId ∧ y.id ≠ c.id)) := by
    rw [List.mem_insertionSort, List.mem_filter]
    exact ⟨ho, by simp [hot, hoid]⟩
  obtain ⟨l1, l2, hdecomp⟩ := List.append_of_mem homem
  have hstep_o : ∀ w, o.timelineStart + o.duration ≤
      moveStep c (max 0 (c.timelineStart + deltaSec)) w o := by
    intro w
    simp only [moveStep]
    rw [if_pos ⟨hovp.2, hovp.1⟩, if_neg (not_lt.mpr hstart)]
    exact le_max_right _ _
  show o.timelineStart + o.duration ≤
    (List.insertionSort startLE
      (state.clips.filter (fun y => y.trackId = c.trackId ∧ y.id ≠ c.id))).foldl
      (moveStep c (max 0 (c.timelineStart + deltaSec)))
      (max 0 (c.timelineStart + deltaSec))
  rw [hdecomp, List.foldl_append, List.foldl_cons]
  refine le_trans (hstep_o _) (le_foldl_of_steps _ l2 ?_ _)
  intro x hx v
  refine hsteps x ?_ v
  rw [hdecomp]
  exact List.mem_append.mpr (Or.inr (List.mem_cons_of_mem o hx))

/-- Witness for C2: the clip [10,14) dragged left to a proposal overlapping
the neighbor [0,5) it started after resolves to at least the neighbor's
end. -/
theorem resolveMove_clamps_witness :
    (mkClip "o" 0 0 5).timelineStart + (mkClip "o" 0 0 5).duration ≤
      resolveMove stC2w clipC2w 0 (-7) :=
  resolveMove_clamps_to_neighbor_end stC2w clipC2w (-7) (mkClip "o" 0 0 5)
    (by simp [stC2w, mkState]) rfl (by simp [mkClip, clipC2w])
    (by norm_num [clipC2w, mkClip])
    (by
      intro x hx
      simp only [stC2w, mkState] at hx
      rcases List.mem_cons.mp hx with rfl | hx2
      · norm_num [mkClip]
      · rcases List.mem_cons.mp hx2 with rfl | hx3
        · norm_num [mkClip]
        · cases hx3)
    (by
      intro x hx hxt hxid
      simp only [stC2w, mkState] at hx
      rcases List.mem_cons.mp hx with rfl | hx2
      · norm_num [intervalsOverlap, clipC2w, mkClip]
      · rcases List.mem_cons.mp hx2 with rfl | hx3
        · exact absurd rfl hxid
        · cases hx3)
    (by norm_num [clipC2w, mkClip])
    (by norm_num [intervalsOverlap, clipC2w, mkClip])

/-- C2 counterexample: starting from the disjoint clips [8,12), [15,18)
and [20,30) on one track, a single MOVE proposal for the [20,30) clip with
a pointer delta of -16 seconds, applied through UPDATE_CLIP, produces a
state in which the moved clip [12,22) intersects the untouched clip
[15,18). -/
theorem resolveMove_overlap_cex :
    StateNoOverlap stC2 ∧
    ¬ StateNoOverlap
      (timelineReducer stC2 (Action.updateClip "c" (resolveMoveChanges stC2 clipC2 0 (-16)))) := by
  constructor
  · norm_num [StateNoOverlap, stC2, mkState, mkClip, intervalsOverlap, List.pairwise_cons]
  · have h1 : resolveMoveChanges stC2 clipC2 0 (-16) =
        { timelineStart := some 12, trackId := some (0 : Int), zIndex := some (0 : ℚ) } := by
      norm_num [resolveMoveChanges, resolveMove, moveStep, stC2, mkState, mkClip, clipC2, startLE]
    rw [h1]
    have hf : List.find? (fun c => c.id = "c") stC2.clips = some clipC2 := rfl
    simp only [timelineReducer, hf]
    norm_num +decide [StateNoOverlap, applyClipChanges, stC2, mkState, mkClip, clipC2,
      intervalsOverlap, List.pairwise_cons]

/-- Witness for C6: one AddClip command, checked on its clip. -/
theorem reachable_duration_margin_witness :
    (mkClip "w" 0 0 5).timelineStart + (mkClip "w" 0 0 5).duration + 5 ≤
      (runActions (createInitialState 60 { width := 1920, height := 1080, name := "1080p" })
        [Action.addClip (mkClip "w" 0 0 5)]).duration :=
  reachable_duration_margin 60 { width := 1920, height := 1080, name := "1080p" }
    [Action.addClip (mkClip "w" 0 0 5)] (mkClip "w" 0 0 5)
    (by simp [runActions, timelineReducer, createInitialState, upsertClip])

end VideoEditor
